import Mathlib

/-!
Verification of the rollout orchestrator in geoip_updater.py.

The embedding models each method of the GeoIPUpdater class as a pure
function over an explicit environment of oracles: every external call
(the Lambda registry, curl downloads, the file lock) is represented by a
field of an environment record giving the outcome the call would return.
Functions that issue registry calls also return an explicit trace of the
calls they made, so claims of the form "no publish call is issued" are
theorems about the trace.
-/

namespace GeoIP


/-- Raw bytes of an artifact file, one natural number per byte. -/
def Content : Type := List Nat

/-- Registry calls issued against the Lambda API of one region. -/
inductive RegistryCall where
  | listLayerVersions (region : String)
  | getLayerVersion (region : String)
  | publishLayerVersion (region : String)
  | listFunctions (region : String)
  | getFunctionConfiguration (region : String) (fn : String)
  | updateFunctionConfiguration (region : String) (fn : String)
  | deleteLayerVersion (region : String) (version : Nat)
deriving DecidableEq, Repr

/-- True exactly on publish_layer_version calls. -/
def RegistryCall.isPublish : RegistryCall → Bool
  | .publishLayerVersion _ => true
  | _ => false

/-- One entry of the list_layer_versions response: sequence number and ARN. -/
structure VersionEntry where
  version : Nat
  arn : String
deriving DecidableEq, Repr

/-- Configuration of one Lambda function: its name and the ARNs of its layers,
in order. -/
structure FunctionConfig where
  name : String
  layers : List String
deriving DecidableEq, Repr

/-- Substring test on lists of characters, mirroring the Python `in` operator
on strings. -/
def charsContain (pat : List Char) : List Char → Bool
  | [] => pat.isEmpty
  | c :: rest => pat.isPrefixOf (c :: rest) || charsContain pat rest

/-- Substring test on strings, mirroring the Python `in` operator. -/
def strContains (pat s : String) : Bool :=
  charsContain pat.data s.data

/-- Test from update_function_layer line 607: a layer ARN belongs to the
artifact family when it contains the substring ":layer:LAYERNAME:". -/
def matchesFamily (layerName arn : String) : Bool :=
  strContains (":layer:" ++ layerName ++ ":") arn

/-- Loop body of update_function_layer lines 606 to 612: rebuild the layer
list, replacing every family match by the new ARN, and report whether any
match was seen. -/
def buildNewLayers (layerName newArn : String) : List String → List String × Bool
  | [] => ([], false)
  | arn :: rest =>
    let tail := buildNewLayers layerName newArn rest
    if matchesFamily layerName arn then (newArn :: tail.1, true)
    else (arn :: tail.1, tail.2)

/-- Outcome of update_function_layer for one function: either the function
was skipped with no write issued, or update_function_configuration was
called with the rebuilt layer list and either succeeded or failed. -/
inductive MigrationAction where
  | skippedNoWrite
  | wrote (newLayers : List String) (ok : Bool)
deriving DecidableEq, Repr

/-- Model of update_function_layer lines 600 to 626: when no layer of the
function matches the family, return without writing; otherwise issue the
configuration update with the rebuilt list. -/
def update_function_layer (layerName newArn : String) (cfg : FunctionConfig)
    (updateOk : Bool) : MigrationAction :=
  let built := buildNewLayers layerName newArn cfg.layers
  if built.2 then .wrote built.1 updateOk else .skippedNoWrite

/-- Environment of update_functions_using_layer: the names returned by the
list_functions paginator (or a failure of the enumeration itself), the
per-function result of get_function_configuration, and whether each
update_function_configuration call succeeds. -/
structure MigrationEnv where
  listFunctions : Except Unit (List String)
  getConfig : String → Except Unit FunctionConfig
  updateOk : String → Bool

/-- Loop of update_functions_using_layer lines 579 to 591 over the listed
function names. A get_function_configuration failure raises out of the
whole loop, which the caller turns into an empty result; calls already
issued stay in the trace. Returns none on such an abort, otherwise the
names of the functions whose configuration update succeeded. -/
def migrateGo (layerName newArn region : String) (env : MigrationEnv) :
    List String → Option (List String) × List RegistryCall
  | [] => (some [], [])
  | n :: rest =>
    match env.getConfig n with
    | .error _ => (none, [.getFunctionConfiguration region n])
    | .ok cfg =>
      let here :=
        match update_function_layer layerName newArn cfg (env.updateOk n) with
        | .skippedNoWrite => (false, ([] : List RegistryCall))
        | .wrote _ ok => (ok, [.updateFunctionConfiguration region n])
      let restRes := migrateGo layerName newArn region env rest
      let updated :=
        match restRes.1 with
        | none => none
        | some l => some (if here.1 then n :: l else l)
      (updated, .getFunctionConfiguration region n :: (here.2 ++ restRes.2))

/-- Model of update_functions_using_layer lines 573 to 598: enumerate the
functions of the region, rebind each matching function to the new layer
ARN, and return the list of updated function names; any exception makes
the whole step return an empty list. -/
def update_functions_using_layer (layerName newArn region : String)
    (env : MigrationEnv) : List String × List RegistryCall :=
  match env.listFunctions with
  | .error _ => ([], [.listFunctions region])
  | .ok names =>
    let r := migrateGo layerName newArn region env names
    (r.1.getD [], .listFunctions region :: r.2)

/-- Environment of is_layer_version_in_use: the function configurations the
paginated scan would observe, or a failure of any call inside the scan. -/
structure InUseEnv where
  functions : Except Unit (List FunctionConfig)

/-- Model of is_layer_version_in_use lines 659 to 674: true when some listed
function carries the ARN among its layers; any failure of the scan is
treated as the version being in use. -/
def is_layer_version_in_use (layerVersionArn : String) (env : InUseEnv) : Bool :=
  match env.functions with
  | .error _ => true
  | .ok fns => fns.any (fun cfg => cfg.layers.any (fun a => a == layerVersionArn))

/-- Environment of cleanup_old_layer_versions: the list_layer_versions
response and, for each candidate ARN, the state the liveness scan would
observe at the moment it runs. -/
structure CleanupEnv where
  listVersionsRes : Except Unit (List VersionEntry)
  inUse : String → InUseEnv

/-- Comparator placing higher sequence numbers first, as the reverse sort
of cleanup_old_layer_versions line 637 does. -/
def descLe (a b : VersionEntry) : Bool :=
  decide (b.version ≤ a.version)

/-- Descending sort by sequence number from cleanup_old_layer_versions
line 637. -/
def sortVersionsDesc (versions : List VersionEntry) : List VersionEntry :=
  versions.mergeSort descLe

/-- Per-candidate body of the cleanup loop lines 640 to 654: run the
liveness check and, when the version is not in use, issue the delete call.
Returns the deleted sequence number, if any, and the calls made. -/
def cleanupStep (region : String) (env : CleanupEnv) (v : VersionEntry) :
    Option Nat × List RegistryCall :=
  if is_layer_version_in_use v.arn (env.inUse v.arn) then
    (none, [.listFunctions region])
  else
    (some v.version, [.listFunctions region, .deleteLayerVersion region v.version])

/-- Model of cleanup_old_layer_versions lines 628 to 657: list the versions,
keep the most recent keepLatestN unconditionally, and delete each older
version whose liveness check reports it unused. Returns the sequence
numbers for which a delete call was issued. -/
def cleanup_old_layer_versions (region : String) (env : CleanupEnv)
    (keepLatestN : Nat) : List Nat × List RegistryCall :=
  match env.listVersionsRes with
  | .error _ => ([], [.listLayerVersions region])
  | .ok versions =>
    if versions.length ≤ keepLatestN then ([], [.listLayerVersions region])
    else
      let toCheck := (sortVersionsDesc versions).drop keepLatestN
      (toCheck.filterMap (fun v => (cleanupStep region env v).1),
       .listLayerVersions region :: (toCheck.map (fun v => (cleanupStep region env v).2)).flatten)

/-- Per-region outcome dictionary value: the status strings are the ones the
source writes, namely success, skipped and failed. -/
inductive RegionResult where
  | success (version : Nat) (arn : String) (updatedFunctions : Nat)
  | skipped (reason : String)
  | failed (error : String)
deriving DecidableEq, Repr

/-- Status string of an outcome, as stored in the result dictionaries. -/
def RegionResult.status : RegionResult → String
  | .success _ _ _ => "success"
  | .skipped _ => "skipped"
  | .failed _ => "failed"

/-- Environment of one call to update_single_region. The publish oracle is
indexed by attempt number: publish 0 is what publish_layer_version returns
the first time it is called in this run, publish k what a later retry
would have returned. -/
structure RegionEnv where
  publish : Nat → Except String (Nat × String)
  migrationEnv : MigrationEnv
  cleanupEnv : CleanupEnv

/-- Model of update_single_region lines 745 to 764 together with
update_layer_version lines 551 to 571: publish the new version once; on
failure return a failed outcome at once, otherwise migrate the functions,
reap old versions and return a success outcome. -/
def update_single_region (layerName region : String) (renv : RegionEnv) :
    RegionResult × List RegistryCall :=
  match renv.publish 0 with
  | .error e => (.failed e, [.publishLayerVersion region])
  | .ok (ver, arn) =>
    let mig := update_functions_using_layer layerName arn region renv.migrationEnv
    let cln := cleanup_old_layer_versions region renv.cleanupEnv 2
    (.success ver arn mig.1.length, .publishLayerVersion region :: (mig.2 ++ cln.2))

/-- Conversion applied by update_all_regions lines 734 to 740 to the result
of one future: a value is recorded as is, an escaped exception is recorded
as a failed outcome. -/
def outcomeOf : Except String (RegionResult × List RegistryCall) →
    RegionResult × List RegistryCall
  | .ok p => p
  | .error e => (.failed e, [])

/-- Model of update_all_regions lines 722 to 743: run one pipeline per
region and collect the per-region outcomes into a dictionary, here an
association list keyed by region. The parameter order is the completion
order of the futures; the pipeline is abstract so that an escaped
exception can be modelled as an error value. -/
def update_all_regions
    (pipeline : String → Except String (RegionResult × List RegistryCall))
    (order : List String) : List (String × RegionResult) × List RegistryCall :=
  (order.map (fun r => (r, (outcomeOf (pipeline r)).1)),
   (order.map (fun r => (outcomeOf (pipeline r)).2)).flatten)

/-- Environment of compare_layer_content: outcome of the curl download of
the currently published layer, outcome of unzipping it, whether the
expected mmdb path exists after extraction, the bytes of the current mmdb
file, and the two byte sizes that the source reads only for the log line. -/
structure CompareEnv where
  download : Except Unit Unit
  unzip : Except Unit Unit
  mmdbPresent : Bool
  currentBytes : Content
  newSize : Nat
  currentSize : Nat

/-- Model of compare_layer_content lines 508 to 549: any failure to obtain
the current content yields true, otherwise the decision is equality of the
md5 fingerprints of the new and the current file. The sizes are never
consulted. -/
def compare_layer_content (md5 : Content → String) (newBytes : Content)
    (env : CompareEnv) : Bool :=
  match env.download with
  | .error _ => true
  | .ok _ =>
    match env.unzip with
    | .error _ => true
    | .ok _ =>
      if env.mmdbPresent then md5 newBytes != md5 env.currentBytes
      else true

/-- Environment of check_update_needed against the reference region: the
list_layer_versions response backing get_layer_info, the content location
returned by get_layer_version (error for an exception, none for a missing
Location field), and the comparison environment. -/
structure CheckEnv where
  listVersionsRes : Except Unit (List VersionEntry)
  contentLocation : Except Unit (Option String)
  compareEnv : CompareEnv

/-- Model of get_layer_info lines 460 to 477: the head of the version list,
with any failure or an empty list collapsing to none. -/
def get_layer_info (res : Except Unit (List VersionEntry)) : Option VersionEntry :=
  match res with
  | .error _ => none
  | .ok [] => none
  | .ok (v :: _) => some v

/-- Model of check_update_needed lines 479 to 506: no existing layer, a
missing download location or a failed retrieval all yield true, otherwise
the fingerprint comparison decides. Also returns the registry calls made. -/
def check_update_needed (md5 : Content → String) (newBytes : Content)
    (region : String) (env : CheckEnv) : Bool × List RegistryCall :=
  match get_layer_info env.listVersionsRes with
  | none => (true, [.listLayerVersions region])
  | some _ =>
    match env.contentLocation with
    | .error _ => (true, [.listLayerVersions region, .getLayerVersion region])
    | .ok none => (true, [.listLayerVersions region, .getLayerVersion region])
    | .ok (some _) =>
      (compare_layer_content md5 newBytes env.compareEnv,
       [.listLayerVersions region, .getLayerVersion region])

/-- Static configuration of a run: layer name, configured regions and the
primary region used as reference for change detection. -/
structure Config where
  layerName : String
  regions : List String
  primaryRegion : String

/-- Ways update_layer can abort before producing a result dictionary. -/
inductive RunError where
  | lockUnavailable
  | downloadFailed (e : String)
deriving DecidableEq, Repr

/-- Environment of one update_layer run: whether the file lock is free, the
outcome of download_mmdb, the change-detection environment, one region
environment per region, and the completion order of the per-region
futures. -/
structure RunEnv where
  lockFree : Bool
  downloadResult : Except String Content
  checkEnv : CheckEnv
  regionEnvs : String → RegionEnv
  order : List String

/-- Model of update_layer lines 784 to 827: acquire the lock, download the
database, consult check_update_needed unless forced, and either mark every
region skipped or fan out the per-region pipelines. Returns the outcome
dictionary or the abort, together with all registry calls issued. -/
def update_layer (md5 : Content → String) (cfg : Config) (env : RunEnv)
    (forceUpdate : Bool) : Except RunError (List (String × RegionResult)) × List RegistryCall :=
  if env.lockFree = false then (.error .lockUnavailable, [])
  else
    match env.downloadResult with
    | .error e => (.error (.downloadFailed e), [])
    | .ok mmdb =>
      if forceUpdate then
        let res := update_all_regions
          (fun r => .ok (update_single_region cfg.layerName r (env.regionEnvs r))) env.order
        (.ok res.1, res.2)
      else
        let chk := check_update_needed md5 mmdb cfg.primaryRegion env.checkEnv
        if chk.1 then
          let res := update_all_regions
            (fun r => .ok (update_single_region cfg.layerName r (env.regionEnvs r))) env.order
          (.ok res.1, chk.2 ++ res.2)
        else
          (.ok (cfg.regions.map (fun r => (r, RegionResult.skipped "no_update_needed"))), chk.2)

/-- Attempt loop of execute_with_retry lines 212 to 220, with the attempt
index threaded through: the operation result of the current attempt is
returned on success, the last failure propagates, earlier failures move on
to the next attempt. -/
def retryFrom (op : Nat → Except String Content) : Nat → Nat → Except String Content
  | i, 0 => op i
  | i, Nat.succ fuel =>
    match op i with
    | .ok a => .ok a
    | .error _ => retryFrom op (i + 1) fuel

/-- Model of execute_with_retry lines 210 to 220 for an attempt-indexed
operation: up to maxRetries attempts are made; with zero allowed attempts
the Python loop body never runs and the function returns None. -/
def execute_with_retry (op : Nat → Except String Content) (maxRetries : Nat) :
    Option (Except String Content) :=
  match maxRetries with
  | 0 => none
  | Nat.succ fuel => some (retryFrom op 0 fuel)

/-- Model of download_mmdb lines 297 to 302: the download operation is run
through execute_with_retry, with five attempts against MaxMind and three
against the backup URL. -/
def download_mmdb (useMaxmindDirect : Bool) (op : Nat → Except String Content) :
    Option (Except String Content) :=
  if useMaxmindDirect then execute_with_retry op 5
  else execute_with_retry op 3

/-- Concrete run environment used to witness the lock-held abort. -/
def lockedEnv : RunEnv where
  lockFree := false
  downloadResult := .error "unused"
  checkEnv :=
    { listVersionsRes := .error ()
      contentLocation := .error ()
      compareEnv :=
        { download := .error (), unzip := .error (), mmdbPresent := false
          currentBytes := [], newSize := 0, currentSize := 0 } }
  regionEnvs := fun _ =>
    { publish := fun _ => .error "unused"
      migrationEnv :=
        { listFunctions := .error (), getConfig := fun _ => .error ()
          updateOk := fun _ => false }
      cleanupEnv := { listVersionsRes := .error (), inUse := fun _ => ⟨.error ()⟩ } }
  order := ["us-east-2"]

/-- Concrete region environment whose publish call fails. -/
def failPublishEnv : RegionEnv where
  publish := fun _ => .error "publish rejected"
  migrationEnv :=
    { listFunctions := .ok ["f1"], getConfig := fun _ => .error ()
      updateOk := fun _ => true }
  cleanupEnv := { listVersionsRes := .error (), inUse := fun _ => ⟨.error ()⟩ }

/-- Concrete check environment with no published version. -/
def noVersionCheckEnv : CheckEnv where
  listVersionsRes := .ok []
  contentLocation := .error ()
  compareEnv :=
    { download := .error (), unzip := .error (), mmdbPresent := false
      currentBytes := [], newSize := 0, currentSize := 0 }

/-- Concrete function configuration holding one family layer between two
unrelated layers. -/
def threeLayerConfig : FunctionConfig where
  name := "fnA"
  layers :=
    ["arn:aws:lambda:us-east-2:1:layer:Other:3",
     "arn:aws:lambda:us-east-2:1:layer:GeoLite2:7",
     "arn:aws:lambda:us-east-2:1:layer:Third:1"]

/-- Concrete pipeline for the fan-out witness: one region succeeds, one
raises an unexpected exception. -/
def mixedPipeline : String → Except String (RegionResult × List RegistryCall) :=
  fun r =>
    if r = "eu-west-1" then .error "thread crashed"
    else .ok (.success 6 "arn:v6" 2, [.publishLayerVersion r])

/-- Concrete run environment in which the published reference content has
the same bytes as the freshly downloaded artifact. -/
def unchangedEnv : RunEnv where
  lockFree := true
  downloadResult := .ok [9, 9, 9]
  checkEnv :=
    { listVersionsRes := .ok [{ version := 5, arn := "arn:v5" }]
      contentLocation := .ok (some "https://example.test/layer.zip")
      compareEnv :=
        { download := .ok (), unzip := .ok (), mmdbPresent := true
          currentBytes := [9, 9, 9], newSize := 3, currentSize := 3 } }
  regionEnvs := fun _ =>
    { publish := fun _ => .ok (6, "arn:v6")
      migrationEnv :=
        { listFunctions := .ok [], getConfig := fun _ => .error ()
          updateOk := fun _ => true }
      cleanupEnv := { listVersionsRes := .ok [], inUse := fun _ => ⟨.ok []⟩ } }
  order := ["us-east-2"]

/-- Concrete hash used by the witnesses: the byte length rendered as a
string, enough to compare concrete contents. -/
def md5c : Content → String := fun c => toString (List.length c)

/-- Concrete single-region configuration used by the witnesses. -/
def cfg1 : Config where
  layerName := "GeoLite2"
  regions := ["us-east-2"]
  primaryRegion := "us-east-2"

/-- Concrete cleanup environment: three versions, the oldest two
unreferenced, the liveness scan succeeding with one function still bound
to version 4. -/
def reaperEnv : CleanupEnv where
  listVersionsRes := .ok
    [{ version := 1, arn := "arn:v1" }, { version := 5, arn := "arn:v5" },
     { version := 4, arn := "arn:v4" }]
  inUse := fun a =>
    if a = "arn:v4" then ⟨.ok [{ name := "fnA", layers := ["arn:v4"] }]⟩
    else ⟨.ok []⟩

/-- Publish oracle that fails on its first call and would succeed on any
later call. -/
def transientPublish : Nat → Except String (Nat × String) :=
  fun i => if i = 0 then .error "transient" else .ok (7, "arn:v7")

/-- Region environment around the transiently failing publish oracle. -/
def transientRegionEnv : RegionEnv where
  publish := transientPublish
  migrationEnv :=
    { listFunctions := .ok [], getConfig := fun _ => .error ()
      updateOk := fun _ => false }
  cleanupEnv := { listVersionsRes := .error (), inUse := fun _ => ⟨.error ()⟩ }

/-- Download oracle that times out on its first attempt and succeeds on
every later one. -/
def transientDownload : Nat → Except String Content :=
  fun i => if i = 0 then .error "timeout" else .ok [1, 2]

/-! Helper lemmas and claim theorems -/

/-- Lookup in an association list built by pairing each key of l with a
value computed from it: the result is the computed value exactly on the
members of l. -/
theorem lookup_map_self {β : Type} (f : String → β) (l : List String) (x : String) :
    (l.map (fun r => (r, f r))).lookup x = if x ∈ l then some (f x) else none := by
  induction l with
  | nil => simp
  | cons a t ih =>
    by_cases h : x = a
    · subst h; simp [List.lookup]
    · have hb : (x == a) = false := by simp [h]
      simp [List.lookup, hb, ih, h]

/-- When no layer of the list matches the family, buildNewLayers returns the
list unchanged and reports no match. -/
theorem buildNewLayers_of_no_match (layerName newArn : String) :
    ∀ l : List String, (∀ arn ∈ l, matchesFamily layerName arn = false) →
    buildNewLayers layerName newArn l = (l, false) := by
  intro l h
  induction l with
  | nil => rfl
  | cons a t ih =>
    have ha : matchesFamily layerName a = false := h a (by simp)
    have ht := ih (fun arn harn => h arn (by simp [harn]))
    simp [buildNewLayers, ha, ht]

/-- When exactly one position of the list matches the family, buildNewLayers
replaces exactly that position by the new ARN and reports a match. -/
theorem buildNewLayers_of_single_match (layerName newArn : String) :
    ∀ (l : List String) (i : Nat) (a : String),
    l.get? i = some a → matchesFamily layerName a = true →
    (∀ j b, j ≠ i → l.get? j = some b → matchesFamily layerName b = false) →
    buildNewLayers layerName newArn l = (l.set i newArn, true) := by
  intro l
  induction l with
  | nil => intro i a hget; simp at hget
  | cons x t ih =>
    intro i a hget hmatch hothers
    cases i with
    | zero =>
      have hx : x = a := by simpa using hget
      subst hx
      have ht : buildNewLayers layerName newArn t = (t, false) := by
        apply buildNewLayers_of_no_match
        intro arn harn
        obtain ⟨j, hj⟩ := List.get?_of_mem harn
        exact hothers (j + 1) arn (by omega) (by simpa using hj)
      simp [buildNewLayers, hmatch, ht]
    | succ j =>
      have hx : matchesFamily layerName x = false :=
        hothers 0 x (by omega) (by simp)
      have ht := ih j a (by simpa using hget) hmatch
        (fun k b hk hb => hothers (k + 1) b (by omega) (by simpa using hb))
      simp [buildNewLayers, hx, ht, List.set]

/-- The retry loop returns the first success when every earlier attempt in
its range fails. -/
theorem retryFrom_first_success (op : Nat → Except String Content) (a : Content) :
    ∀ (fuel start i : Nat), start ≤ i → i ≤ start + fuel →
    (∀ j, start ≤ j → j < i → ∃ e, op j = .error e) →
    op i = .ok a → retryFrom op start fuel = .ok a := by
  intro fuel
  induction fuel with
  | zero =>
    intro start i h1 h2 _ hok
    have : start = i := by omega
    subst this
    simpa [retryFrom] using hok
  | succ f ih =>
    intro start i h1 h2 hfail hok
    by_cases hs : start = i
    · subst hs
      simp [retryFrom, hok]
    · obtain ⟨e, he⟩ := hfail start (by omega) (by omega)
      have := ih (start + 1) i (by omega) (by omega)
        (fun j hj1 hj2 => hfail j (by omega) hj2) hok
      simp [retryFrom, he, this]

/-- C8: when another run holds the lock, update_layer aborts with the
lock-unavailable error and issues zero registry calls of any kind: no
publish, no function enumeration or update, no version listing or
deletion. -/
theorem claim8_lock_unavailable (md5 : Content → String) (cfg : Config)
    (env : RunEnv) (forceUpdate : Bool) (h : env.lockFree = false) :
    update_layer md5 cfg env forceUpdate = (.error .lockUnavailable, []) := by
  simp [update_layer, h]

/-- Witness for C8 at a concrete locked environment. -/
theorem claim8_witness :
    update_layer (fun c => toString c.length)
      { layerName := "GeoLite2", regions := ["us-east-2"], primaryRegion := "us-east-2" }
      lockedEnv false = (.error .lockUnavailable, []) :=
  claim8_lock_unavailable (fun c => toString c.length)
    { layerName := "GeoLite2", regions := ["us-east-2"], primaryRegion := "us-east-2" }
    lockedEnv false rfl

/-- C3: a publish failure makes the per-target pipeline stop at once with a
failed outcome and a trace containing only the publish call, so neither
migration nor reaping runs for that target; a publish success fixes the
outcome status to success whatever the migration and cleanup environments
hold, so failures in those steps never downgrade the outcome. -/
theorem claim3_pipeline_failure_isolation (layerName region : String)
    (renv : RegionEnv) :
    (∀ e, renv.publish 0 = .error e →
      update_single_region layerName region renv =
        (.failed e, [.publishLayerVersion region]))
  ∧ (∀ v a, renv.publish 0 = .ok (v, a) →
      (update_single_region layerName region renv).1.status = "success") := by
  constructor
  · intro e he
    simp [update_single_region, he]
  · intro v a hok
    simp [update_single_region, hok, RegionResult.status]

/-- Witness for C3: at the concrete failing publish the pipeline stops with
a failed outcome and only the publish call in the trace. -/
theorem claim3_witness :
    update_single_region "GeoLite2" "us-east-2" failPublishEnv =
      (.failed "publish rejected", [.publishLayerVersion "us-east-2"]) :=
  (claim3_pipeline_failure_isolation "GeoLite2" "us-east-2" failPublishEnv).1
    "publish rejected" rfl

/-- Every branch of check_update_needed either returns true at once or
hands the decision to compare_layer_content. -/
theorem check_update_needed_cases (md5 : Content → String) (newBytes : Content)
    (region : String) (env : CheckEnv) :
    (check_update_needed md5 newBytes region env).1 = true ∨
    (check_update_needed md5 newBytes region env).1 =
      compare_layer_content md5 newBytes env.compareEnv := by
  obtain ⟨lv, loc, cmp⟩ := env
  rcases hinfo : get_layer_info lv with _ | v
  · left; simp [check_update_needed, hinfo]
  · rcases loc with e | o
    · cases e; left; simp [check_update_needed, hinfo]
    · rcases o with _ | url
      · left; simp [check_update_needed, hinfo]
      · right; simp [check_update_needed, hinfo]

/-- Failure defaults of compare_layer_content: a failed download, a failed
unzip or a missing mmdb file each force the comparison to report a needed
update. -/
theorem compare_layer_content_defaults (md5 : Content → String)
    (newBytes : Content) (env : CompareEnv) :
    (env.download = .error () → compare_layer_content md5 newBytes env = true)
  ∧ (env.unzip = .error () → compare_layer_content md5 newBytes env = true)
  ∧ (env.mmdbPresent = false → compare_layer_content md5 newBytes env = true) := by
  obtain ⟨dl, uz, mp, cur, ns, cs⟩ := env
  refine ⟨?_, ?_, ?_⟩ <;> intro h
  · subst h; simp [compare_layer_content]
  · rcases dl with e | u
    · cases e; simp [compare_layer_content]
    · cases u; subst h; simp [compare_layer_content]
  · rcases dl with e | u
    · cases e; simp [compare_layer_content]
    · cases u
      rcases uz with e | u2
      · cases e; simp [compare_layer_content]
      · cases u2; subst h; simp [compare_layer_content]

/-- When the reference layer exists and its location was obtained, the
check result is exactly the content comparison. -/
theorem check_update_needed_reaches_compare (md5 : Content → String)
    (newBytes : Content) (region : String) (env : CheckEnv)
    (v : VersionEntry) (rest : List VersionEntry) (url : String)
    (h1 : env.listVersionsRes = .ok (v :: rest))
    (h2 : env.contentLocation = .ok (some url)) :
    (check_update_needed md5 newBytes region env).1 =
      compare_layer_content md5 newBytes env.compareEnv := by
  obtain ⟨lv, loc, cmp⟩ := env
  cases h1
  cases h2
  simp [check_update_needed, get_layer_info]

/-- C2: check_update_needed returns true whenever the reference content
cannot be determined: no published version, an unobtainable content
location, a failed download, a failed unzip, or a missing mmdb file inside
the layer. When both fingerprints are available it returns true exactly
when they differ, and the two byte sizes are never an input to the
decision. -/
theorem claim2_change_detector_defaults (md5 : Content → String)
    (newBytes : Content) (region : String) (env : CheckEnv) :
    (get_layer_info env.listVersionsRes = none →
      (check_update_needed md5 newBytes region env).1 = true)
  ∧ (env.contentLocation = .error () →
      (check_update_needed md5 newBytes region env).1 = true)
  ∧ (env.contentLocation = .ok none →
      (check_update_needed md5 newBytes region env).1 = true)
  ∧ (env.compareEnv.download = .error () →
      (check_update_needed md5 newBytes region env).1 = true)
  ∧ (env.compareEnv.unzip = .error () →
      (check_update_needed md5 newBytes region env).1 = true)
  ∧ (env.compareEnv.mmdbPresent = false →
      (check_update_needed md5 newBytes region env).1 = true)
  ∧ (∀ v rest url, env.listVersionsRes = .ok (v :: rest) →
      env.contentLocation = .ok (some url) →
      env.compareEnv.download = .ok () → env.compareEnv.unzip = .ok () →
      env.compareEnv.mmdbPresent = true →
      ((check_update_needed md5 newBytes region env).1 = true ↔
        md5 newBytes ≠ md5 env.compareEnv.currentBytes))
  ∧ (∀ s1 s2,
      (check_update_needed md5 newBytes region
        { env with compareEnv :=
            { env.compareEnv with newSize := s1, currentSize := s2 } }).1 =
      (check_update_needed md5 newBytes region env).1) := by
  refine ⟨?_, ?_, ?_, ?_, ?_, ?_, ?_, ?_⟩
  · intro h
    obtain ⟨lv, loc, cmp⟩ := env
    have h2 : get_layer_info lv = none := h
    simp [check_update_needed, h2]
  · intro h
    obtain ⟨lv, loc, cmp⟩ := env
    have h2 : loc = .error () := h
    cases h2
    rcases hinfo : get_layer_info lv with _ | v <;>
      simp [check_update_needed, hinfo]
  · intro h
    obtain ⟨lv, loc, cmp⟩ := env
    have h2 : loc = .ok none := h
    cases h2
    rcases hinfo : get_layer_info lv with _ | v <;>
      simp [check_update_needed, hinfo]
  · intro h
    rcases check_update_needed_cases md5 newBytes region env with hc | hc
    · exact hc
    · rw [hc]
      exact (compare_layer_content_defaults md5 newBytes env.compareEnv).1 h
  · intro h
    rcases check_update_needed_cases md5 newBytes region env with hc | hc
    · exact hc
    · rw [hc]
      exact (compare_layer_content_defaults md5 newBytes env.compareEnv).2.1 h
  · intro h
    rcases check_update_needed_cases md5 newBytes region env with hc | hc
    · exact hc
    · rw [hc]
      exact (compare_layer_content_defaults md5 newBytes env.compareEnv).2.2 h
  · intro v rest url h1 h2 hdl huz hmp
    obtain ⟨lv, loc, cmp⟩ := env
    obtain ⟨dl, uz, mp, cur, ns, cs⟩ := cmp
    have e1 : lv = .ok (v :: rest) := h1
    have e2 : loc = .ok (some url) := h2
    have e3 : dl = Except.ok () := hdl
    have e4 : uz = Except.ok () := huz
    have e5 : mp = true := hmp
    cases e1; cases e2; cases e3; cases e4; cases e5
    simp [check_update_needed, get_layer_info, compare_layer_content, bne_iff_ne]
  · intro s1 s2
    obtain ⟨lv, loc, cmp⟩ := env
    rcases hinfo : get_layer_info lv with _ | v
    · simp [check_update_needed, hinfo]
    · rcases loc with e | o
      · cases e; simp [check_update_needed, hinfo]
      · rcases o with _ | url
        · simp [check_update_needed, hinfo]
        · obtain ⟨dl, uz, mp, cur, ns, cs⟩ := cmp
          simp [check_update_needed, hinfo, compare_layer_content]

/-- Witness for C2: with no published version in the reference region the
detector reports that an update is needed. -/
theorem claim2_witness :
    (check_update_needed (fun c => toString c.length) [1, 2, 3] "us-east-2"
      noVersionCheckEnv).1 = true :=
  (claim2_change_detector_defaults (fun c => toString c.length) [1, 2, 3]
    "us-east-2" noVersionCheckEnv).1 rfl

/-- C4: per function, when no layer reference matches the artifact family
the function is skipped with no configuration write; when exactly one
reference matches, the write replaces exactly that position by the new
ARN and every other position keeps its previous entry. -/
theorem claim4_migrator_frame (layerName newArn : String)
    (cfg : FunctionConfig) (updateOk : Bool) :
    ((∀ arn ∈ cfg.layers, matchesFamily layerName arn = false) →
      update_function_layer layerName newArn cfg updateOk = .skippedNoWrite)
  ∧ (∀ i a, cfg.layers.get? i = some a → matchesFamily layerName a = true →
      (∀ j b, j ≠ i → cfg.layers.get? j = some b →
        matchesFamily layerName b = false) →
      update_function_layer layerName newArn cfg updateOk =
        .wrote (cfg.layers.set i newArn) updateOk
      ∧ (cfg.layers.set i newArn).get? i = some newArn
      ∧ ∀ j, j ≠ i → (cfg.layers.set i newArn).get? j = cfg.layers.get? j) := by
  constructor
  · intro hnone
    have h := buildNewLayers_of_no_match layerName newArn cfg.layers hnone
    simp [update_function_layer, h]
  · intro i a hget hmatch hothers
    have h := buildNewLayers_of_single_match layerName newArn cfg.layers i a
      hget hmatch hothers
    have hlen : i < cfg.layers.length := by
      by_contra hc
      rw [List.get?_eq_none.mpr (by omega)] at hget
      exact Option.noConfusion hget
    refine ⟨by simp [update_function_layer, h], ?_, ?_⟩
    · rw [List.get?_eq_getElem? ]
      simp [List.getElem?_set_self, hlen]
    · intro j hj
      rw [List.get?_eq_getElem?, List.get?_eq_getElem?]
      rw [List.getElem?_set_ne (by omega)]

/-- Witness for C4: at the concrete configuration the single family layer
in the middle is replaced and both neighbours stay in place. -/
theorem claim4_witness :
    update_function_layer "GeoLite2" "arn:new" threeLayerConfig true =
      .wrote (threeLayerConfig.layers.set 1 "arn:new") true :=
  ((claim4_migrator_frame "GeoLite2" "arn:new" threeLayerConfig true).2 1
    "arn:aws:lambda:us-east-2:1:layer:GeoLite2:7" (by rfl) (by decide)
    (by
      intro j b hj hb
      match j, hj, hb with
      | 0, _, hb => cases hb; decide
      | 2, _, hb => cases hb; decide
      | (n + 3), _, hb => simp [threeLayerConfig] at hb)).1

/-- C6: the fan-out records, for every configured region, exactly the
outcome of the pipeline of that region, converting an escaped exception
into a failed outcome; the recorded outcome of a region depends only on
the pipeline of that region, for any completion order that enumerates the
configured regions. -/
theorem claim6_fanout_isolation
    (pipeline : String → Except String (RegionResult × List RegistryCall))
    (regions order : List String)
    (hmem : ∀ x, x ∈ order ↔ x ∈ regions) :
    ∀ r ∈ regions,
      ((update_all_regions pipeline order).1.lookup r =
        some (outcomeOf (pipeline r)).1)
    ∧ (∀ e, pipeline r = .error e →
        (update_all_regions pipeline order).1.lookup r = some (.failed e))
    ∧ (∀ q : String → Except String (RegionResult × List RegistryCall),
        q r = pipeline r →
        (update_all_regions q order).1.lookup r =
          (update_all_regions pipeline order).1.lookup r) := by
  intro r hr
  have hro : r ∈ order := (hmem r).mpr hr
  refine ⟨?_, ?_, ?_⟩
  · rw [update_all_regions, lookup_map_self (fun x => (outcomeOf (pipeline x)).1) order r]
    simp [hro]
  · intro e he
    rw [update_all_regions, lookup_map_self (fun x => (outcomeOf (pipeline x)).1) order r]
    simp [hro, he, outcomeOf]
  · intro q hq
    rw [update_all_regions, update_all_regions,
      lookup_map_self (fun x => (outcomeOf (q x)).1) order r,
      lookup_map_self (fun x => (outcomeOf (pipeline x)).1) order r]
    simp [hro, hq]

/-- Witness for C6: the crashing region is recorded as failed while the
other region keeps its own successful outcome. -/
theorem claim6_witness :
    (update_all_regions mixedPipeline ["eu-west-1", "us-east-2"]).1.lookup
      "eu-west-1" = some (.failed "thread crashed") :=
  ((claim6_fanout_isolation mixedPipeline ["us-east-2", "eu-west-1"]
    ["eu-west-1", "us-east-2"] (by intro x; constructor <;> (intro h; simp at h; simp [h]; tauto))
    "eu-west-1" (by simp)).2.1 "thread crashed" rfl)

/-- C1: when the new artifact carries the same fingerprint as the content
currently published in the reference region, the detector reports no
update, the run with force disabled marks every configured region skipped,
and the trace of the run contains no publish call. -/
theorem claim1_skip_run_no_publish (md5 : Content → String) (cfg : Config)
    (env : RunEnv) (newBytes : Content) (v : VersionEntry)
    (rest : List VersionEntry) (url : String)
    (hlock : env.lockFree = true)
    (hdl : env.downloadResult = .ok newBytes)
    (h1 : env.checkEnv.listVersionsRes = .ok (v :: rest))
    (h2 : env.checkEnv.contentLocation = .ok (some url))
    (h3 : env.checkEnv.compareEnv.download = .ok ())
    (h4 : env.checkEnv.compareEnv.unzip = .ok ())
    (h5 : env.checkEnv.compareEnv.mmdbPresent = true)
    (hhash : md5 newBytes = md5 env.checkEnv.compareEnv.currentBytes) :
    ((check_update_needed md5 newBytes cfg.primaryRegion env.checkEnv).1 = false)
  ∧ ((update_layer md5 cfg env false).1 =
      .ok (cfg.regions.map (fun r => (r, RegionResult.skipped "no_update_needed"))))
  ∧ (∀ r ∈ cfg.regions,
      (cfg.regions.map (fun r => (r, RegionResult.skipped "no_update_needed"))).lookup r =
        some (.skipped "no_update_needed"))
  ∧ (∀ c ∈ (update_layer md5 cfg env false).2, c.isPublish = false) := by
  obtain ⟨lock, dlr, ce, renvs, ord⟩ := env
  obtain ⟨lv, loc, cmp⟩ := ce
  obtain ⟨dl, uz, mp, cur, ns, cs⟩ := cmp
  have e0 : lock = true := hlock
  have e1 : dlr = .ok newBytes := hdl
  have e2 : lv = .ok (v :: rest) := h1
  have e3 : loc = .ok (some url) := h2
  have e4 : dl = Except.ok () := h3
  have e5 : uz = Except.ok () := h4
  have e6 : mp = true := h5
  cases e0; cases e1; cases e2; cases e3; cases e4; cases e5; cases e6
  have hh : md5 newBytes = md5 cur := hhash
  have hcheck : (check_update_needed md5 newBytes cfg.primaryRegion
      ⟨.ok (v :: rest), .ok (some url), ⟨.ok (), .ok (), true, cur, ns, cs⟩⟩).1 = false := by
    simp [check_update_needed, get_layer_info, compare_layer_content, hh]
  refine ⟨hcheck, ?_, ?_, ?_⟩
  · simp [update_layer, hcheck]
  · intro r hr
    rw [lookup_map_self (fun _ => RegionResult.skipped "no_update_needed") cfg.regions r]
    simp [hr]
  · have htr : (update_layer md5 cfg
        ⟨true, .ok newBytes, ⟨.ok (v :: rest), .ok (some url),
          ⟨.ok (), .ok (), true, cur, ns, cs⟩⟩, renvs, ord⟩ false).2 =
        [RegistryCall.listLayerVersions cfg.primaryRegion,
         RegistryCall.getLayerVersion cfg.primaryRegion] := by
      simp only [update_layer, hcheck]
      simp [check_update_needed, get_layer_info]
    rw [htr]
    intro c hc
    simp at hc
    rcases hc with hc | hc <;> (subst hc; rfl)

/-- Witness for C1: at the concrete unchanged environment the detector
says no update is needed. -/
theorem claim1_witness :
    (check_update_needed (fun c => toString c.length) [9, 9, 9] "us-east-2"
      unchangedEnv.checkEnv).1 = false :=
  (claim1_skip_run_no_publish (fun c => toString c.length)
    { layerName := "GeoLite2", regions := ["us-east-2"], primaryRegion := "us-east-2" }
    unchangedEnv [9, 9, 9] { version := 5, arn := "arn:v5" } []
    "https://example.test/layer.zip" rfl rfl rfl rfl rfl rfl rfl rfl).1

/-- C7: whenever update_layer produces a result dictionary, that dictionary
holds an entry for exactly the configured regions, and every recorded
status is one of success, skipped and failed. -/
theorem claim7_report_complete (md5 : Content → String) (cfg : Config)
    (env : RunEnv) (forceUpdate : Bool)
    (horder : ∀ x, x ∈ env.order ↔ x ∈ cfg.regions) :
    ∀ results, (update_layer md5 cfg env forceUpdate).1 = .ok results →
      (∀ r, (results.lookup r).isSome ↔ r ∈ cfg.regions)
    ∧ (∀ r res, results.lookup r = some res →
        res.status = "success" ∨ res.status = "skipped" ∨ res.status = "failed") := by
  intro results hres
  have hstat : ∀ res : RegionResult,
      res.status = "success" ∨ res.status = "skipped" ∨ res.status = "failed" := by
    intro res; cases res <;> simp [RegionResult.status]
  refine ⟨?_, fun r res _ => hstat res⟩
  intro r
  obtain ⟨lock, dlr, ce, renvs, ord⟩ := env
  have horder2 : ∀ x, x ∈ ord ↔ x ∈ cfg.regions := horder
  cases lock with
  | false => simp [update_layer] at hres
  | true =>
    cases dlr with
    | error e => simp [update_layer] at hres
    | ok mmdb =>
      cases forceUpdate with
      | true =>
        simp [update_layer, update_all_regions] at hres
        rw [← hres,
          lookup_map_self
            (fun x => (outcomeOf (.ok (update_single_region cfg.layerName x (renvs x)))).1)
            ord r]
        by_cases hr : r ∈ ord
        · simp [hr, (horder2 r).mp hr]
        · simp [hr]
          exact fun hcontra => hr ((horder2 r).mpr hcontra)
      | false =>
        cases hc : (check_update_needed md5 mmdb cfg.primaryRegion ce).1 with
        | true =>
          simp [update_layer, update_all_regions, hc] at hres
          rw [← hres,
            lookup_map_self
              (fun x => (outcomeOf (.ok (update_single_region cfg.layerName x (renvs x)))).1)
              ord r]
          by_cases hr : r ∈ ord
          · simp [hr, (horder2 r).mp hr]
          · simp [hr]
            exact fun hcontra => hr ((horder2 r).mpr hcontra)
        | false =>
          simp [update_layer, hc] at hres
          rw [← hres,
            lookup_map_self (fun _ => RegionResult.skipped "no_update_needed")
              cfg.regions r]
          by_cases hr : r ∈ cfg.regions <;> simp [hr]

/-- Witness for C7: the report of the concrete unchanged run has an entry
for the one configured region. -/
theorem claim7_witness :
    ((["us-east-2"].map
        (fun r => (r, RegionResult.skipped "no_update_needed"))).lookup
      "us-east-2").isSome ↔ "us-east-2" ∈ ["us-east-2"] :=
  (claim7_report_complete md5c cfg1 unchangedEnv false
    (by intro x; exact Iff.rfl)
    (["us-east-2"].map (fun r => (r, RegionResult.skipped "no_update_needed")))
    rfl).1 "us-east-2"

/-- C10: with force enabled, update_layer is independent of the whole
change-detection environment, so check_update_needed is never consulted,
and every configured region receives the outcome of its own dispatched
pipeline even when the new fingerprint equals the published one. -/
theorem claim10_force_update (md5 : Content → String) (cfg : Config)
    (env : RunEnv) (newBytes : Content)
    (hlock : env.lockFree = true)
    (hdl : env.downloadResult = .ok newBytes)
    (horder : ∀ x, x ∈ env.order ↔ x ∈ cfg.regions) :
    (∀ c : CheckEnv,
      update_layer md5 cfg { env with checkEnv := c } true =
        update_layer md5 cfg env true)
  ∧ ∀ results, (update_layer md5 cfg env true).1 = .ok results →
      ∀ r ∈ cfg.regions,
        results.lookup r =
          some (update_single_region cfg.layerName r (env.regionEnvs r)).1 := by
  obtain ⟨lock, dlr, ce, renvs, ord⟩ := env
  have e0 : lock = true := hlock
  have e1 : dlr = .ok newBytes := hdl
  cases e0
  cases e1
  have horder2 : ∀ x, x ∈ ord ↔ x ∈ cfg.regions := horder
  constructor
  · intro c
    simp [update_layer]
  · intro results hres r hr
    simp [update_layer, update_all_regions] at hres
    rw [← hres,
      lookup_map_self
        (fun x => (outcomeOf (.ok (update_single_region cfg.layerName x (renvs x)))).1)
        ord r]
    simp [(horder2 r).mpr hr, outcomeOf]

/-- Witness for C10: at the concrete unchanged environment, forcing the run
still dispatches the pipeline of the configured region, whose publish
succeeds, even though the fingerprints match. -/
theorem claim10_witness :
    (["us-east-2"].map
        (fun r => (r, (update_single_region "GeoLite2" r
          (unchangedEnv.regionEnvs r)).1))).lookup "us-east-2" =
      some (update_single_region "GeoLite2" "us-east-2"
        (unchangedEnv.regionEnvs "us-east-2")).1 :=
  (claim10_force_update md5c cfg1 unchangedEnv [9, 9, 9] rfl rfl
    (fun _ => Iff.rfl)).2
    (["us-east-2"].map
      (fun r => (r, (update_single_region "GeoLite2" r (unchangedEnv.regionEnvs r)).1)))
    rfl "us-east-2" (List.mem_singleton.mpr rfl)

/-- Any sequence number for which the reaper issued a delete call comes
from an entry beyond the retained prefix of the descending sort whose
liveness check succeeded and reported the version unused. -/
theorem mem_cleanup_deleted (region : String) (env : CleanupEnv)
    (keepLatestN : Nat) (versions : List VersionEntry)
    (hlist : env.listVersionsRes = .ok versions) (x : Nat) :
    x ∈ (cleanup_old_layer_versions region env keepLatestN).1 →
    keepLatestN < versions.length ∧
    ∃ e, e ∈ (sortVersionsDesc versions).drop keepLatestN ∧
      is_layer_version_in_use e.arn (env.inUse e.arn) = false ∧ e.version = x := by
  intro hx
  obtain ⟨lvr, inuse⟩ := env
  have hl : lvr = .ok versions := hlist
  cases hl
  by_cases hlen : versions.length ≤ keepLatestN
  · simp [cleanup_old_layer_versions, hlen] at hx
  · refine ⟨by omega, ?_⟩
    simp only [cleanup_old_layer_versions, if_neg hlen] at hx
    rw [List.mem_filterMap] at hx
    obtain ⟨e, he, hstep⟩ := hx
    cases hu : is_layer_version_in_use e.arn (inuse e.arn) with
    | true => simp [cleanupStep, hu] at hstep
    | false =>
      simp [cleanupStep, hu] at hstep
      exact ⟨e, he, hu, hstep⟩

/-- C5: for any ordering of the listed versions with pairwise distinct
sequence numbers, the reaper never issues a delete call for a version
among the keepLatestN most recent, never for a version whose liveness
check reports a remaining function reference, and never for a version
whose liveness check fails, the failure being treated as in use. -/
theorem claim5_reaper_safety (region : String) (env : CleanupEnv)
    (keepLatestN : Nat) (versions : List VersionEntry)
    (hlist : env.listVersionsRes = .ok versions)
    (hnd : (versions.map VersionEntry.version).Nodup) :
    ∀ v ∈ versions,
      ((versions.filter (fun w => decide (v.version < w.version))).length <
          keepLatestN →
        v.version ∉ (cleanup_old_layer_versions region env keepLatestN).1)
    ∧ (is_layer_version_in_use v.arn (env.inUse v.arn) = true →
        v.version ∉ (cleanup_old_layer_versions region env keepLatestN).1)
    ∧ ((env.inUse v.arn).functions = .error () →
        v.version ∉ (cleanup_old_layer_versions region env keepLatestN).1) := by
  intro v hv
  have hperm : List.Perm (sortVersionsDesc versions) versions :=
    List.mergeSort_perm versions descLe
  have hinj : ∀ e, e ∈ versions → e.version = v.version → e = v := by
    intro e he heq
    exact List.inj_on_of_nodup_map hnd he hv heq
  have hblock : is_layer_version_in_use v.arn (env.inUse v.arn) = true →
      v.version ∉ (cleanup_old_layer_versions region env keepLatestN).1 := by
    intro hinuse hmem
    obtain ⟨hlen, e, he, hnot, hev⟩ :=
      mem_cleanup_deleted region env keepLatestN versions hlist v.version hmem
    have hever : e ∈ versions :=
      hperm.mem_iff.mp (List.drop_subset _ _ he)
    have heqv : e = v := hinj e hever hev
    cases heqv
    rw [hnot] at hinuse
    exact Bool.noConfusion hinuse
  refine ⟨?_, hblock, ?_⟩
  · intro hfew hmem
    obtain ⟨hlen, e, he, hnot, hev⟩ :=
      mem_cleanup_deleted region env keepLatestN versions hlist v.version hmem
    have htrans : ∀ a b c : VersionEntry, descLe a b → descLe b c → descLe a c := by
      intro a b c h1 h2
      simp [descLe] at h1 h2 ⊢
      omega
    have htotal : ∀ a b : VersionEntry, descLe a b || descLe b a := by
      intro a b
      simp [descLe]
      omega
    have hpair : (sortVersionsDesc versions).Pairwise (fun a b => descLe a b) :=
      List.sorted_mergeSort htrans htotal versions
    have hsplit : (sortVersionsDesc versions).take keepLatestN ++
        (sortVersionsDesc versions).drop keepLatestN = sortVersionsDesc versions :=
      List.take_append_drop keepLatestN (sortVersionsDesc versions)
    rw [← hsplit] at hpair
    have hcross := (List.pairwise_append.mp hpair).2.2
    have hndsorted : ((sortVersionsDesc versions).map VersionEntry.version).Nodup :=
      ((hperm.map VersionEntry.version).nodup_iff).mpr hnd
    rw [← hsplit, List.map_append] at hndsorted
    have hdisj := (List.nodup_append.mp hndsorted).2.2
    have hstrict : ∀ x ∈ (sortVersionsDesc versions).take keepLatestN,
        v.version < x.version := by
      intro x hx
      have h1 : descLe x e = true := hcross x hx e he
      have h2 : e.version ≤ x.version := by simpa [descLe] using h1
      have h3 : x.version ≠ e.version := by
        intro heq
        exact hdisj (List.mem_map_of_mem VersionEntry.version hx)
          (heq ▸ List.mem_map_of_mem VersionEntry.version he)
      omega
    have hflen : (versions.filter (fun w => decide (v.version < w.version))).length =
        ((sortVersionsDesc versions).filter
          (fun w => decide (v.version < w.version))).length :=
      (hperm.filter (fun w => decide (v.version < w.version))).length_eq.symm
    have hsplitf : (sortVersionsDesc versions).filter
        (fun w => decide (v.version < w.version)) =
        ((sortVersionsDesc versions).take keepLatestN).filter
          (fun w => decide (v.version < w.version)) ++
        ((sortVersionsDesc versions).drop keepLatestN).filter
          (fun w => decide (v.version < w.version)) := by
      rw [← List.filter_append, hsplit]
    have htf : ((sortVersionsDesc versions).take keepLatestN).filter
        (fun w => decide (v.version < w.version)) =
        (sortVersionsDesc versions).take keepLatestN := by
      rw [List.filter_eq_self]
      intro x hx
      exact decide_eq_true (hstrict x hx)
    have hlentake : ((sortVersionsDesc versions).take keepLatestN).length =
        keepLatestN := by
      rw [List.length_take]
      have hle : (sortVersionsDesc versions).length = versions.length :=
        hperm.length_eq
      omega
    rw [hflen, hsplitf, List.length_append, htf, hlentake] at hfew
    omega
  · intro herr
    apply hblock
    simp [is_layer_version_in_use, herr]

/-- Witness for C5: version 5 is among the two most recent of the concrete
environment and the reaper does not delete it. -/
theorem claim5_witness :
    5 ∉ (cleanup_old_layer_versions "us-east-2" reaperEnv 2).1 :=
  ((claim5_reaper_safety "us-east-2" reaperEnv 2
    [{ version := 1, arn := "arn:v1" }, { version := 5, arn := "arn:v5" },
     { version := 4, arn := "arn:v4" }] rfl (by decide)
    { version := 5, arn := "arn:v5" } (by decide)).1 (by decide))

/-- C9 counterexample: the publish oracle fails only on its first attempt
and would succeed on the second, well inside the default bound of three
attempts, yet the pipeline records a failed outcome: the per-target
pipeline steps are not wrapped in the retry mechanism. -/
theorem claim9_counterexample :
    transientPublish 0 = .error "transient"
  ∧ transientPublish 1 = .ok (7, "arn:v7")
  ∧ (1 : Nat) < 3
  ∧ (update_single_region "GeoLite2" "us-east-2" transientRegionEnv).1 =
      .failed "transient"
  ∧ (update_single_region "GeoLite2" "us-east-2" transientRegionEnv).1.status ≠
      "success" := by
  refine ⟨rfl, rfl, by omega, rfl, by decide⟩

/-- C9 amended: the bounded-retry mechanism exists but wraps only the
download step. execute_with_retry returns the first success when every
earlier attempt failed and the bound is not exhausted, and download_mmdb
applies it with five attempts for MaxMind and three for the backup URL;
the three per-target pipeline steps are attempted exactly once per run,
update_single_region reading only the first publish result. -/
theorem claim9_retry_amended (op : Nat → Except String Content) (a : Content)
    (i : Nat) (hfail : ∀ j, j < i → ∃ e, op j = .error e) (hok : op i = .ok a) :
    (∀ n, i < n → execute_with_retry op n = some (.ok a))
  ∧ (i < 3 → download_mmdb false op = some (.ok a))
  ∧ (i < 5 → download_mmdb true op = some (.ok a))
  ∧ (∀ (layerName region : String) (renv : RegionEnv)
      (p : Nat → Except String (Nat × String)), p 0 = renv.publish 0 →
      update_single_region layerName region { renv with publish := p } =
        update_single_region layerName region renv) := by
  have hmain : ∀ n, i < n → execute_with_retry op n = some (.ok a) := by
    intro n hn
    cases n with
    | zero => omega
    | succ f =>
      simp only [execute_with_retry]
      rw [retryFrom_first_success op a f 0 i (by omega) (by omega)
        (fun j _ hj2 => hfail j hj2) hok]
  refine ⟨hmain, ?_, ?_, ?_⟩
  · intro h3
    simp only [download_mmdb, if_neg (by simp : ¬ false = true)]
    exact hmain 3 h3
  · intro h5
    simp only [download_mmdb, if_pos rfl]
    exact hmain 5 h5
  · intro layerName region renv p hp
    obtain ⟨pub, me, ce⟩ := renv
    have hp2 : p 0 = pub 0 := hp
    simp only [update_single_region]
    rw [hp2]

/-- Witness for the amended C9: the transiently failing download succeeds
through the three-attempt retry of the backup path. -/
theorem claim9_witness :
    download_mmdb false transientDownload = some (.ok [1, 2]) :=
  (claim9_retry_amended transientDownload [1, 2] 1
    (fun j hj => ⟨"timeout", by
      have hj0 : j = 0 := by omega
      subst hj0
      rfl⟩) rfl).2.1 (by omega)

end GeoIP
